import Mathlib

/-!
Verification of the post-filtering, routing, data-loading and gallery-viewer
logic of a single-page portfolio site (filterUI.js / app.js / postRenderer.js),
via a shallow embedding of the relevant functions.
-/

namespace Site

/-! ### Data model -/

/-- A post record as produced by the data loader from the posts JSON files.
The `date` field holds the numeric value of the JavaScript expression
`new Date(post.date).getTime()` (milliseconds since the epoch), which is the
only way the filtering and loading code ever consumes a date. -/
structure Post where
  id : String
  title : String
  date : Nat
  shortDescription : Option String
  tags : Option (List String)
  deriving DecidableEq

/-- The mutable filter state of `PostFilterUI` (filterUI.js lines 8-13). -/
structure FilterState where
  searchTerm : String
  selectedTags : List String
  sortOrder : String
  viewMode : String
  deriving DecidableEq

/-! ### String helpers: `toLowerCase` and `includes` -/

/-- The char sequence `s` starts with `pat`. -/
def startsWithChars : List Char → List Char → Bool
  | [], _ => true
  | _ :: _, [] => false
  | p :: ps, c :: cs => p == c && startsWithChars ps cs

/-- Substring occurrence over char sequences. -/
def containsChars (pat : List Char) : List Char → Bool
  | [] => startsWithChars pat []
  | c :: cs => startsWithChars pat (c :: cs) || containsChars pat cs

/-- Models JavaScript `hay.includes(pat)`. -/
def strIncludes (hay pat : String) : Bool :=
  containsChars pat.data hay.data

/-- Models JavaScript `s.toLowerCase()`; `Char.toLower` stands in for the
locale-independent Unicode lowering. -/
def strLower (s : String) : String :=
  ⟨s.data.map Char.toLower⟩

/-! ### The filter predicates (filterUI.js lines 55-70) -/

/-- The callback of the search filter (filterUI.js lines 57-62), applied when
the search term is non-empty; `searchLower` is the lowered search term:
title match OR short-description match OR any-tag match. -/
def searchMatch (searchLower : String) (p : Post) : Bool :=
  strIncludes (strLower p.title) searchLower
    || (match p.shortDescription with
        | some d => strIncludes (strLower d) searchLower
        | none => false)
    || (match p.tags with
        | some ts => ts.any fun t => strIncludes (strLower t) searchLower
        | none => false)

/-- The callback of the tag filter (filterUI.js lines 67-69):
`post.tags && selectedTags.some(tag => post.tags.includes(tag))`. -/
def tagMatch (selectedTags : List String) (p : Post) : Bool :=
  match p.tags with
  | some ts => selectedTags.any fun t => ts.contains t
  | none => false

/-! ### Sorting (filterUI.js lines 72-77)

`Array.prototype.sort` is stable (ES2019); a stable sort with respect to a
total preorder is unique, so `List.insertionSort` models it exactly. -/

/-- The order realised by the comparator `(a, b) => new Date(b.date) -
new Date(a.date)` used for `sortOrder === 'newest'`: it puts `a` no later
than `b` exactly when `b.date ≤ a.date`. -/
def newerEq (a b : Post) : Prop := b.date ≤ a.date

/-- The order realised by the comparator `(a, b) => new Date(a.date) -
new Date(b.date)` used for the other sort orders. -/
def olderEq (a b : Post) : Prop := a.date ≤ b.date

instance : DecidableRel newerEq := fun a b => Nat.decLe b.date a.date

instance : DecidableRel olderEq := fun a b => Nat.decLe a.date b.date

instance : IsTotal Post newerEq := ⟨fun a b => Nat.le_total b.date a.date⟩

instance : IsTrans Post newerEq := ⟨fun _ _ _ h1 h2 => Nat.le_trans h2 h1⟩

instance : IsTotal Post olderEq := ⟨fun a b => Nat.le_total a.date b.date⟩

instance : IsTrans Post olderEq := ⟨fun _ _ _ h1 h2 => Nat.le_trans h1 h2⟩

/-- The sort step of `filterAndSortPosts` (filterUI.js lines 72-77): date
descending for `'newest'`, ascending otherwise. -/
def sortByDate (sortOrder : String) (l : List Post) : List Post :=
  if sortOrder = "newest" then l.insertionSort newerEq else l.insertionSort olderEq

/-- Models `selectedTags.sort()` (filterUI.js line 42): the JavaScript default
sort on strings is a total lexicographic order; any stable sort by a total
order gives the same order normalisation, modelled by the linear order on
`String`. -/
def sortTags (l : List String) : List String :=
  l.insertionSort (· ≤ ·)

/-! ### The filter computation and its cache (filterUI.js lines 38-81) -/

/-- The recompute path of `filterAndSortPosts` (filterUI.js lines 52-80) as a
function of the values it reads: copy the posts, filter by search when the
term is non-empty (`if (this.filterState.searchTerm)`), filter by tags when
some are selected, then sort by date. -/
def computeFiltered (posts : List Post) (searchTerm : String)
    (selectedTags : List String) (sortOrder : String) : List Post :=
  let result := posts
  let result := if searchTerm ≠ "" then result.filter (searchMatch (strLower searchTerm)) else result
  let result := if 0 < selectedTags.length then result.filter (tagMatch selectedTags) else result
  sortByDate sortOrder result

/-- The cache key (filterUI.js lines 40-44): the code serialises
`{search, tags: selectedTags.sort(), sort}` with `JSON.stringify`, which is
injective on such records, so the key is modelled by the triple itself.
A `none` key models the initial value `''`, which equals no serialised state. -/
abbrev FilterKey := String × List String × String

/-- The key built at the start of `filterAndSortPosts` for a filter state. -/
def callKey (fs : FilterState) : FilterKey :=
  (fs.searchTerm, sortTags fs.selectedTags, fs.sortOrder)

/-- The filter state after `this.filterState.selectedTags.sort()` has sorted
the tag array in place while the key was built. -/
def sortedFS (fs : FilterState) : FilterState :=
  { fs with selectedTags := sortTags fs.selectedTags }

/-- The whole mutable state of a `PostFilterUI` instance; the `uiCache` field
holds only presentation HTML and is not modelled. -/
structure UIState where
  posts : List Post
  filteredPosts : List Post
  allTags : List String
  filterState : FilterState
  lastFilterKey : Option FilterKey
  deriving DecidableEq

/-- One call to `filterAndSortPosts` (filterUI.js lines 38-81): the returned
list, the successor object state, and whether the result was served from the
cache.  The cache is consulted only when the key is unchanged AND the stored
result is non-empty (`this.filteredPosts.length > 0`); otherwise the key is
stored and the result recomputed on the tag-sorted state. -/
def filterAndSortPosts (s : UIState) : List Post × UIState × Bool :=
  if s.lastFilterKey = some (callKey s.filterState) ∧ 0 < s.filteredPosts.length then
    (s.filteredPosts, { s with filterState := sortedFS s.filterState }, true)
  else
    (computeFiltered s.posts (sortedFS s.filterState).searchTerm
       (sortedFS s.filterState).selectedTags (sortedFS s.filterState).sortOrder,
     { s with filterState := sortedFS s.filterState,
              filteredPosts := computeFiltered s.posts (sortedFS s.filterState).searchTerm
                (sortedFS s.filterState).selectedTags (sortedFS s.filterState).sortOrder,
              lastFilterKey := some (callKey s.filterState) },
     false)

/-- `resetFilters` (filterUI.js lines 270-276): clear the three filter fields,
clear the cache key (`this.lastFilterKey = ''`), then recompute. -/
def resetFilters (s : UIState) : UIState :=
  let s1 := { s with
    filterState := { s.filterState with
      searchTerm := "", selectedTags := [], sortOrder := "newest" },
    lastFilterKey := none }
  (filterAndSortPosts s1).2.1

/-- `clearCache` (filterUI.js lines 279-282); only the key matters here. -/
def clearCache (s : UIState) : UIState :=
  { s with lastFilterKey := none }

/-- Models `extractAllTags` (filterUI.js lines 27-35): collect every tag of
every post into a `Set` and sort the resulting array. -/
def extractAllTags (posts : List Post) : List String :=
  sortTags ((posts.foldl (fun acc p => acc ++ p.tags.getD []) []).dedup)

/-- The state built by the `PostFilterUI` constructor (filterUI.js lines 4-17). -/
def newUIState : UIState :=
  { posts := [], filteredPosts := [], allTags := [],
    filterState :=
      { searchTerm := "", selectedTags := [], sortOrder := "newest", viewMode := "grid" },
    lastFilterKey := none }

/-- `init(posts)` (filterUI.js lines 20-24). -/
def initPosts (posts : List Post) (s : UIState) : UIState :=
  let s1 := { s with posts := posts, allTags := extractAllTags posts }
  (filterAndSortPosts s1).2.1

/-- The state of a freshly constructed and initialised `PostFilterUI`. -/
def initState (posts : List Post) : UIState :=
  initPosts posts newUIState

/-- The states one `PostFilterUI` session can be in: the instance is
initialised with `posts` and then driven by the UI event handlers, which may
overwrite filter-state fields and invoke `filterAndSortPosts`, `resetFilters`
or `clearCache`. -/
inductive Reachable (posts : List Post) : UIState → Prop
  | init : Reachable posts (initState posts)
  | mutate {s} (fs : FilterState) : Reachable posts s → Reachable posts { s with filterState := fs }
  | call {s} : Reachable posts s → Reachable posts (filterAndSortPosts s).2.1
  | reset {s} : Reachable posts s → Reachable posts (resetFilters s)
  | cacheCleared {s} : Reachable posts s → Reachable posts (clearCache s)

/-! ### Basic facts about the filter computation -/

theorem sortTags_perm (l : List String) : List.Perm (sortTags l) l :=
  List.perm_insertionSort _ l

theorem sortTags_idem (l : List String) : sortTags (sortTags l) = sortTags l :=
  List.Sorted.insertionSort_eq (List.sorted_insertionSort _ l)

theorem sortedFS_searchTerm (fs : FilterState) : (sortedFS fs).searchTerm = fs.searchTerm := rfl

theorem sortedFS_sortOrder (fs : FilterState) : (sortedFS fs).sortOrder = fs.sortOrder := rfl

theorem sortedFS_viewMode (fs : FilterState) : (sortedFS fs).viewMode = fs.viewMode := rfl

theorem sortedFS_idem (fs : FilterState) : sortedFS (sortedFS fs) = sortedFS fs := by
  simp [sortedFS, sortTags_idem]

theorem callKey_sortedFS (fs : FilterState) : callKey (sortedFS fs) = callKey fs := by
  simp [callKey, sortedFS, sortTags_idem]

theorem tagMatch_perm {tags tags' : List String} (h : List.Perm tags tags') (p : Post) :
    tagMatch tags p = tagMatch tags' p := by
  unfold tagMatch
  cases p.tags with
  | none => rfl
  | some ts =>
    rw [Bool.eq_iff_iff]
    simp only [List.any_eq_true]
    exact ⟨fun ⟨t, ht, hc⟩ => ⟨t, h.subset ht, hc⟩, fun ⟨t, ht, hc⟩ => ⟨t, h.symm.subset ht, hc⟩⟩

theorem computeFiltered_perm_tags {tags tags' : List String} (h : List.Perm tags tags')
    (posts : List Post) (st so : String) :
    computeFiltered posts st tags so = computeFiltered posts st tags' so := by
  unfold computeFiltered
  rw [h.length_eq, funext (tagMatch_perm h)]

theorem sortByDate_mem {so : String} {l : List Post} {p : Post} :
    p ∈ sortByDate so l ↔ p ∈ l := by
  unfold sortByDate
  split <;> exact List.mem_insertionSort _

/-- Membership in the recomputed result, phrased with the two predicates of
the specification (empty term / empty selection mean no filtering). -/
theorem mem_computeFiltered {posts : List Post} {st : String} {tags : List String}
    {so : String} {p : Post} :
    p ∈ computeFiltered posts st tags so ↔
      p ∈ posts ∧ (st = "" ∨ searchMatch (strLower st) p = true) ∧
        (tags = [] ∨ tagMatch tags p = true) := by
  unfold computeFiltered
  rw [sortByDate_mem]
  by_cases hst : st = "" <;> by_cases htg : tags = [] <;>
    simp [hst, htg, List.mem_filter, List.length_pos, and_assoc] <;> tauto

/-- The cache-consistency invariant: whenever a key is stored, the stored
result is the recomputation for the stored key's components. -/
def Inv (s : UIState) : Prop :=
  ∀ k : FilterKey, s.lastFilterKey = some k →
    s.filteredPosts = computeFiltered s.posts k.1 k.2.1 k.2.2

theorem filterAndSortPosts_posts (s : UIState) :
    (filterAndSortPosts s).2.1.posts = s.posts := by
  unfold filterAndSortPosts
  split <;> rfl

theorem filterAndSortPosts_inv {s : UIState} (h : Inv s) :
    Inv (filterAndSortPosts s).2.1 := by
  unfold filterAndSortPosts
  split
  · exact fun k hk => h k hk
  · intro k hk
    simp only [Option.some.injEq] at hk
    subst hk
    rfl

theorem inv_resetFilters (s : UIState) : Inv (resetFilters s) := by
  unfold resetFilters
  exact filterAndSortPosts_inv (fun k hk => by simp at hk)

theorem reach_posts {posts : List Post} {s : UIState} (h : Reachable posts s) :
    s.posts = posts := by
  induction h with
  | init => simp [initState, initPosts, filterAndSortPosts_posts]
  | mutate fs _ ih => exact ih
  | call _ ih => rw [filterAndSortPosts_posts]; exact ih
  | reset _ ih => rw [resetFilters, filterAndSortPosts_posts]; exact ih
  | cacheCleared _ ih => exact ih

theorem reach_inv {posts : List Post} {s : UIState} (h : Reachable posts s) :
    Inv s := by
  induction h with
  | init =>
    exact filterAndSortPosts_inv (fun k hk => by simp [newUIState] at hk)
  | mutate fs _ ih => intro k hk; exact ih k hk
  | call _ ih => exact filterAndSortPosts_inv ih
  | reset _ _ => exact inv_resetFilters _
  | cacheCleared _ _ => intro k hk; simp [clearCache] at hk

/-- Whether served from the cache or recomputed, the call returns exactly the
recomputation for the current filter state. -/
theorem filterAndSortPosts_result {s : UIState} (h : Inv s) :
    (filterAndSortPosts s).1 =
      computeFiltered s.posts s.filterState.searchTerm
        s.filterState.selectedTags s.filterState.sortOrder := by
  unfold filterAndSortPosts
  split
  next hc =>
    have hkey := h _ hc.1
    simp only [callKey] at hkey
    rw [hkey]
    exact computeFiltered_perm_tags (sortTags_perm _) _ _ _
  next hc =>
    exact computeFiltered_perm_tags (sortTags_perm _) _ _ _

theorem filterAndSortPosts_hit {s : UIState}
    (hc : s.lastFilterKey = some (callKey s.filterState) ∧ 0 < s.filteredPosts.length) :
    filterAndSortPosts s =
      (s.filteredPosts, { s with filterState := sortedFS s.filterState }, true) := by
  unfold filterAndSortPosts
  rw [if_pos hc]

theorem filterAndSortPosts_miss {s : UIState}
    (hc : ¬(s.lastFilterKey = some (callKey s.filterState) ∧ 0 < s.filteredPosts.length)) :
    filterAndSortPosts s =
      (computeFiltered s.posts (sortedFS s.filterState).searchTerm
         (sortedFS s.filterState).selectedTags (sortedFS s.filterState).sortOrder,
       { s with filterState := sortedFS s.filterState,
                filteredPosts := computeFiltered s.posts (sortedFS s.filterState).searchTerm
                  (sortedFS s.filterState).selectedTags (sortedFS s.filterState).sortOrder,
                lastFilterKey := some (callKey s.filterState) },
       false) := by
  unfold filterAndSortPosts
  rw [if_neg hc]

/-- A second call with unchanged state returns the first call's result, does
not change the state, and hits the cache exactly when that result is
non-empty. -/
theorem filterAndSortPosts_again (s : UIState) :
    filterAndSortPosts (filterAndSortPosts s).2.1 =
      ((filterAndSortPosts s).1, (filterAndSortPosts s).2.1,
        decide (0 < (filterAndSortPosts s).1.length)) := by
  by_cases hc : s.lastFilterKey = some (callKey s.filterState) ∧ 0 < s.filteredPosts.length
  · rw [filterAndSortPosts_hit hc]
    have hc2 : ({ s with filterState := sortedFS s.filterState } : UIState).lastFilterKey
        = some (callKey ({ s with filterState := sortedFS s.filterState } : UIState).filterState) ∧
        0 < ({ s with filterState := sortedFS s.filterState } : UIState).filteredPosts.length := by
      simp only [callKey_sortedFS]
      exact hc
    rw [filterAndSortPosts_hit hc2]
    simp [sortedFS_idem, hc.2]
  · rw [filterAndSortPosts_miss hc]
    by_cases hR : 0 < (computeFiltered s.posts (sortedFS s.filterState).searchTerm
        (sortedFS s.filterState).selectedTags (sortedFS s.filterState).sortOrder).length
    · rw [filterAndSortPosts_hit (by simp only [callKey_sortedFS]; exact ⟨trivial, hR⟩)]
      simp [sortedFS_idem, hR]
    · rw [filterAndSortPosts_miss (by simp only [callKey_sortedFS]; exact fun hcc => hR hcc.2)]
      simp [sortedFS_idem, callKey_sortedFS, hR]

/-! ### Demo data for the concrete witnesses -/

/-- Demo post with date 2024-01-01 (epoch-milliseconds 1704067200000). -/
def postA : Post :=
  { id := "a", title := "Alpha", date := 1704067200000,
    shortDescription := some "first project", tags := some ["x"] }

/-- Demo post with date 2024-06-01 (epoch-milliseconds 1717200000000). -/
def postB : Post :=
  { id := "b", title := "Beta", date := 1717200000000,
    shortDescription := some "second project", tags := some ["y"] }

/-- The demo post sequence of the specification's scenarios. -/
def demoPosts : List Post := [postA, postB]

/-- A session state whose search term matches nothing. -/
def zzzState : UIState :=
  { initState demoPosts with
    filterState :=
      { searchTerm := "zzz", selectedTags := [], sortOrder := "newest", viewMode := "grid" } }

/-! ### Claims C1, C2, C3 -/

/-- Claim C1: for every posts sequence the `PostFilterUI` instance was
initialised with and every reachable session state, the list returned by
`filterAndSortPosts` is a subset of the posts sequence, and a post is a member
of the result if and only if it satisfies the search predicate (empty search
term, or a case-insensitive substring match of the term against the title,
the short description, or some tag) and the tag predicate (empty selected-tag
set, or the post's tag set intersects the selected tags). -/
theorem c1_filter_membership (posts : List Post) (s : UIState)
    (h : Reachable posts s) :
    (∀ p ∈ (filterAndSortPosts s).1, p ∈ posts) ∧
    (∀ p : Post, p ∈ (filterAndSortPosts s).1 ↔
      p ∈ posts ∧
        (s.filterState.searchTerm = "" ∨
          searchMatch (strLower s.filterState.searchTerm) p = true) ∧
        (s.filterState.selectedTags = [] ∨ tagMatch s.filterState.selectedTags p = true)) := by
  have hres := filterAndSortPosts_result (reach_inv h)
  have hposts := reach_posts h
  constructor
  · intro p hp
    rw [hres] at hp
    exact hposts ▸ (mem_computeFiltered.mp hp).1
  · intro p
    rw [hres, mem_computeFiltered, hposts]

/-- Witness for C1 at a concrete reachable state. -/
theorem c1_filter_membership_witness :
    postA ∈ (filterAndSortPosts (initState demoPosts)).1 :=
  ((c1_filter_membership demoPosts _ Reachable.init).2 postA).mpr (by decide)

/-- Claim C2: invoking `filterAndSortPosts` twice in succession with an
unchanged filter state (and unchanged posts) yields identical output, and
when the first call's result is non-empty the second call returns the cached
result without recomputation; the cache key is the serialisation of
{search term, order-normalised selected tags, sort order}, modelled by
`callKey`. -/
theorem c2_filter_idempotent (s : UIState) :
    (filterAndSortPosts (filterAndSortPosts s).2.1).1 = (filterAndSortPosts s).1 ∧
    ((filterAndSortPosts s).1 ≠ [] →
      (filterAndSortPosts (filterAndSortPosts s).2.1).2.2 = true) := by
  rw [filterAndSortPosts_again]
  exact ⟨rfl, fun h => by simp [List.length_pos.mpr h]⟩

/-- Witness for C2 at a concrete state with a non-empty result. -/
theorem c2_filter_idempotent_witness :
    (filterAndSortPosts (filterAndSortPosts (initState demoPosts)).2.1).1
        = (filterAndSortPosts (initState demoPosts)).1 ∧
    (filterAndSortPosts (filterAndSortPosts (initState demoPosts)).2.1).2.2 = true :=
  ⟨(c2_filter_idempotent (initState demoPosts)).1,
   (c2_filter_idempotent (initState demoPosts)).2 (by decide)⟩

/-- Claim C3: a filter state whose computed result is empty is never served
from the cache: a repeated call with an identical filter state whose output is
empty recomputes the result (cache flag `false`) and returns the empty list
again. -/
theorem c3_empty_never_cached (s : UIState)
    (h : (filterAndSortPosts s).1 = []) :
    (filterAndSortPosts (filterAndSortPosts s).2.1).2.2 = false ∧
    (filterAndSortPosts (filterAndSortPosts s).2.1).1 = [] := by
  rw [filterAndSortPosts_again]
  exact ⟨by simp [h], h⟩

/-- Witness for C3: search term "zzz" matches nothing, and the repeated call
recomputes. -/
theorem c3_empty_never_cached_witness :
    (filterAndSortPosts (filterAndSortPosts zzzState).2.1).2.2 = false ∧
    (filterAndSortPosts (filterAndSortPosts zzzState).2.1).1 = [] :=
  c3_empty_never_cached zzzState (by decide)

/-! ### Claim C4: ordering and stability -/

/-- The combined pass predicate of the two filter stages (a no-op stage passes
everything), used to relate the output to the input sequence. -/
def passesB (st : String) (tags : List String) (p : Post) : Bool :=
  (if st ≠ "" then searchMatch (strLower st) p else true) &&
  (if 0 < tags.length then tagMatch tags p else true)

theorem computeFiltered_eq_filter (posts : List Post) (st : String)
    (tags : List String) (so : String) :
    computeFiltered posts st tags so = sortByDate so (posts.filter (passesB st tags)) := by
  unfold computeFiltered passesB
  by_cases hst : st = "" <;> by_cases htg : 0 < tags.length <;>
    simp [hst, htg, List.filter_filter, Bool.and_comm]

/-- Stability of the date sort: filtering the sorted list down to one date
value returns exactly the input's subsequence at that date, for any ordering
relation that holds between posts of equal dates. -/
theorem filter_date_insertionSort (r : Post → Post → Prop) [DecidableRel r]
    (hr : ∀ a b : Post, a.date = b.date → r a b) (l : List Post) (d : Nat) :
    (l.insertionSort r).filter (fun p => p.date == d)
      = l.filter (fun p => p.date == d) := by
  have hq : ∀ a ∈ l.filter (fun p => p.date == d), (a.date == d) = true :=
    fun a ha => (List.mem_filter.mp ha).2
  have hsub : List.Sublist (l.filter (fun p => p.date == d)) (l.insertionSort r) := by
    apply List.sublist_insertionSort
    · apply List.pairwise_of_forall_mem_list
      intro a ha b hb
      have hda : a.date = d := by simpa using hq a ha
      have hdb : b.date = d := by simpa using (List.mem_filter.mp hb).2
      exact hr a b (hda.trans hdb.symm)
    · exact List.filter_sublist l
  have hidem : (l.filter (fun p => p.date == d)).filter (fun p => p.date == d)
      = l.filter (fun p => p.date == d) := List.filter_eq_self.mpr hq
  have hsub2 : List.Sublist (l.filter (fun p => p.date == d))
      ((l.insertionSort r).filter (fun p => p.date == d)) := by
    have := hsub.filter (fun p => p.date == d)
    rwa [hidem] at this
  have hperm : List.Perm ((l.insertionSort r).filter (fun p => p.date == d))
      (l.filter (fun p => p.date == d)) :=
    (List.perm_insertionSort r l).filter _
  exact (hsub2.eq_of_length hperm.length_eq.symm).symm

theorem sortByDate_stable (so : String) (l : List Post) (d : Nat) :
    (sortByDate so l).filter (fun p => p.date == d)
      = l.filter (fun p => p.date == d) := by
  unfold sortByDate
  split
  · exact filter_date_insertionSort newerEq (fun a b hab => le_of_eq hab.symm) l d
  · exact filter_date_insertionSort olderEq (fun a b hab => le_of_eq hab) l d

/-- Claim C4: the output of `filterAndSortPosts` is ordered by date,
descending when the sort order is 'newest' and ascending otherwise (in
particular for 'oldest'), and the sort is stable: the subsequence of the
output at any fixed date equals the subsequence of the input posts (those
passing the filters) at that date, i.e. posts with identical dates keep
their relative input order.  The witness is the specification's scenario:
posts dated 2024-01-01 / 2024-06-01 with empty filters and sort 'newest'
come out as [postB, postA]. -/
theorem c4_sorted_and_stable (posts : List Post) (s : UIState)
    (h : Reachable posts s) :
    (s.filterState.sortOrder = "newest" →
      List.Sorted newerEq (filterAndSortPosts s).1) ∧
    (s.filterState.sortOrder ≠ "newest" →
      List.Sorted olderEq (filterAndSortPosts s).1) ∧
    (∀ d : Nat, (filterAndSortPosts s).1.filter (fun p => p.date == d)
        = posts.filter (fun p =>
            passesB s.filterState.searchTerm s.filterState.selectedTags p
              && p.date == d)) := by
  have hres := filterAndSortPosts_result (reach_inv h)
  rw [computeFiltered_eq_filter, reach_posts h] at hres
  refine ⟨fun hso => ?_, fun hso => ?_, fun d => ?_⟩
  · rw [hres, hso]
    unfold sortByDate
    rw [if_pos rfl]
    exact List.sorted_insertionSort _ _
  · rw [hres]
    unfold sortByDate
    rw [if_neg hso]
    exact List.sorted_insertionSort _ _
  · rw [hres, sortByDate_stable, List.filter_filter]
    exact List.filter_congr fun p _ => by rw [Bool.and_comm]

/-- Witness for C4: the scenario of the specification. -/
theorem c4_sorted_and_stable_witness :
    List.Sorted newerEq (filterAndSortPosts (initState demoPosts)).1 ∧
    (filterAndSortPosts (initState demoPosts)).1 = [postB, postA] :=
  ⟨(c4_sorted_and_stable demoPosts _ Reachable.init).1 (by decide), by decide⟩

/-! ### Claim C10: resetFilters -/

/-- Claim C10: `resetFilters` clears the search term to the empty string,
empties the selected-tag set, restores the sort order to 'newest' and
invalidates the memoization cache key (so the recomputation it immediately
performs cannot be served from the cache), while leaving the `viewMode` field
and the underlying posts sequence unchanged. -/
theorem c10_resetFilters_frame (s : UIState) :
    (resetFilters s).filterState.searchTerm = "" ∧
    (resetFilters s).filterState.selectedTags = [] ∧
    (resetFilters s).filterState.sortOrder = "newest" ∧
    (resetFilters s).filterState.viewMode = s.filterState.viewMode ∧
    (resetFilters s).posts = s.posts ∧
    (filterAndSortPosts { s with
        filterState := { s.filterState with
          searchTerm := "", selectedTags := [], sortOrder := "newest" },
        lastFilterKey := none }).2.2 = false ∧
    (resetFilters s).filteredPosts = computeFiltered s.posts "" [] "newest" :=
  ⟨rfl, rfl, rfl, rfl, rfl, rfl, rfl⟩

/-! ### Router and navigation history (app.js lines 463-524) -/

/-- A route as produced by `getCurrentRoute`: `{view, postId}`. -/
structure Route where
  view : String
  postId : Option String
  deriving DecidableEq

/-- The navigation-relevant global state of app.js: the current URL fragment
(`window.location.hash` without the leading '#'), `currentView`, and
`navigationHistory`. -/
structure NavState where
  hash : String
  currentView : String
  navigationHistory : List Route
  deriving DecidableEq

/-- Models JavaScript `str.split('/')` for the single-character separator:
splitting the empty string yields `[""]`, separators at the ends yield empty
segments. -/
def splitSlash : List Char → List (List Char)
  | [] => [[]]
  | c :: cs =>
      if c = '/' then [] :: splitSlash cs
      else (c :: (splitSlash cs).headD []) :: (splitSlash cs).tail

/-- `getCurrentRoute` (app.js lines 496-503): split the fragment on '/',
`view = parts[0] || 'home'`, `postId = parts[1] || null` (a missing or empty
second part is null). -/
def getCurrentRoute (frag : String) : Route :=
  { view :=
      if (splitSlash frag.data).headD [] = [] then "home"
      else ⟨(splitSlash frag.data).headD []⟩
    postId :=
      if ((splitSlash frag.data)[1]?.getD []) = [] then none
      else some ⟨(splitSlash frag.data)[1]?.getD []⟩ }

/-- The fragment assigned by `navigateTo`/`goBack`:
`view + (postId ? '/' + postId : '')` (a null or empty id appends nothing). -/
def hashOf (view : String) (postId : Option String) : String :=
  view ++ (match postId with
           | some p => if p = "" then "" else "/" ++ p
           | none => "")

/-- `navigateTo` (app.js lines 464-480): push the route current before the
call, drop the oldest entry when the stack exceeds 10, then set the fragment
and current view (rendering is display-only). -/
def navigateTo (view : String) (postId : Option String) (s : NavState) : NavState :=
  { hash := hashOf view postId
    currentView := view
    navigationHistory :=
      if 10 < (s.navigationHistory ++ [getCurrentRoute s.hash]).length then
        (s.navigationHistory ++ [getCurrentRoute s.hash]).tail
      else
        s.navigationHistory ++ [getCurrentRoute s.hash] }

/-- `goBack` (app.js lines 483-493): pop the most recent entry and restore
its fragment and view, or fall back to `navigateTo('home')` when the history
is empty. -/
def goBack (s : NavState) : NavState :=
  match s.navigationHistory.getLast? with
  | some prev =>
      { hash := hashOf prev.view prev.postId
        currentView := prev.view
        navigationHistory := s.navigationHistory.dropLast }
  | none => navigateTo "home" none s

/-- The view rendered by `renderContent` (app.js lines 506-524). -/
inductive View where
  | home
  | postsList
  | postDetail (postId : String)
  deriving DecidableEq

/-- The dispatch of `renderContent` on the current fragment: `'home'` renders
home, `'posts'` renders the list or a detail page, anything else falls into
the `default` case and renders home. -/
def renderContent (frag : String) : View :=
  if (getCurrentRoute frag).view = "home" then View.home
  else if (getCurrentRoute frag).view = "posts" then
    match (getCurrentRoute frag).postId with
    | some pid => View.postDetail pid
    | none => View.postsList
  else View.home

/-- A navigation request: a forward navigation or a back navigation. -/
inductive NavOp where
  | nav (view : String) (postId : Option String)
  | back

/-- Apply one navigation request. -/
def applyNavOp (s : NavState) : NavOp → NavState
  | .nav v pid => navigateTo v pid s
  | .back => goBack s

/-- Run a sequence of navigation requests. -/
def runNavOps (s : NavState) (ops : List NavOp) : NavState :=
  ops.foldl applyNavOp s

/-- The routes pushed by a sequence of forward navigations starting at
fragment `frag`: each `navigateTo` pushes the route that was current before
the call. -/
def pushedRoutes (frag : String) : List (String × Option String) → List Route
  | [] => []
  | (v, pid) :: rest => getCurrentRoute frag :: pushedRoutes (hashOf v pid) rest

/-- The last `n` entries of a list. -/
def lastN (n : Nat) (l : List α) : List α :=
  l.drop (l.length - n)

theorem lastN_of_le {l : List α} {n : Nat} (h : l.length ≤ n) : lastN n l = l := by
  unfold lastN
  rw [Nat.sub_eq_zero_of_le h, List.drop_zero]

theorem lastN_append_of_le {w : List α} (u : List α) {n : Nat} (h : n ≤ w.length) :
    lastN n (u ++ w) = lastN n w := by
  unfold lastN
  rw [List.length_append, show u.length + w.length - n = u.length + (w.length - n) by omega,
    List.drop_append]

theorem lastN_lastN_append (n : Nat) (l xs : List α) :
    lastN n (lastN n l ++ xs) = lastN n (l ++ xs) := by
  by_cases h : l.length ≤ n
  · rw [lastN_of_le h]
  · have hlen : (lastN n l).length = n := by
      unfold lastN
      rw [List.length_drop]
      omega
    have hle : n ≤ (lastN n l ++ xs).length := by
      rw [List.length_append, hlen]
      omega
    have hB : l.take (l.length - n) ++ lastN n l = l := List.take_append_drop _ l
    calc lastN n (lastN n l ++ xs)
        = lastN n (l.take (l.length - n) ++ (lastN n l ++ xs)) :=
          (lastN_append_of_le _ hle).symm
      _ = lastN n (l ++ xs) := by rw [← List.append_assoc, hB]

theorem navigateTo_history_eq {s : NavState} (h : s.navigationHistory.length ≤ 10)
    (v : String) (pid : Option String) :
    (navigateTo v pid s).navigationHistory
      = lastN 10 (s.navigationHistory ++ [getCurrentRoute s.hash]) := by
  unfold navigateTo lastN
  split
  next hgt =>
    rw [show (s.navigationHistory ++ [getCurrentRoute s.hash]).length - 10 = 1 by
      simp at hgt ⊢; omega, List.drop_one]
  next hgt =>
    rw [show (s.navigationHistory ++ [getCurrentRoute s.hash]).length - 10 = 0 by
      simp at hgt ⊢; omega, List.drop_zero]

theorem navigateTo_history_le {s : NavState} (h : s.navigationHistory.length ≤ 10)
    (v : String) (pid : Option String) :
    (navigateTo v pid s).navigationHistory.length ≤ 10 := by
  rw [navigateTo_history_eq h v pid]
  unfold lastN
  rw [List.length_drop]
  omega

theorem goBack_history_le {s : NavState} (h : s.navigationHistory.length ≤ 10) :
    (goBack s).navigationHistory.length ≤ 10 := by
  unfold goBack
  split
  · rw [List.length_dropLast]
    omega
  · exact navigateTo_history_le h _ _

theorem runNavOps_history_le {s : NavState} (h : s.navigationHistory.length ≤ 10)
    (ops : List NavOp) : (runNavOps s ops).navigationHistory.length ≤ 10 := by
  induction ops generalizing s with
  | nil => exact h
  | cons op rest ih =>
    cases op with
    | nav v pid => exact ih (navigateTo_history_le h v pid)
    | back => exact ih (goBack_history_le h)

theorem pushedRoutes_length (frag : String) (navs : List (String × Option String)) :
    (pushedRoutes frag navs).length = navs.length := by
  induction navs generalizing frag with
  | nil => rfl
  | cons vp rest ih =>
    obtain ⟨v, pid⟩ := vp
    simp [pushedRoutes, ih]

theorem runNavOps_navs_history {navs : List (String × Option String)} :
    ∀ {s : NavState}, s.navigationHistory.length ≤ 10 →
    (runNavOps s (navs.map fun vp => NavOp.nav vp.1 vp.2)).navigationHistory
      = lastN 10 (s.navigationHistory ++ pushedRoutes s.hash navs) := by
  induction navs with
  | nil =>
    intro s h
    show s.navigationHistory = _
    rw [show pushedRoutes s.hash [] = [] from rfl, List.append_nil, lastN_of_le h]
  | cons vp rest ih =>
    obtain ⟨v, pid⟩ := vp
    intro s h
    show (runNavOps (navigateTo v pid s) (rest.map fun vp => NavOp.nav vp.1 vp.2)).navigationHistory = _
    rw [ih (navigateTo_history_le h v pid), navigateTo_history_eq h v pid,
      show (navigateTo v pid s).hash = hashOf v pid from rfl, lastN_lastN_append,
      List.append_assoc]
    rfl

/-- Claim C5: starting from an empty navigation history, after every sequence
of `navigateTo` and `goBack` operations the history stack holds at most 10
entries, and a sequence of N > 10 forward navigations retains exactly the 10
most recently pushed entries (the oldest are dropped). -/
theorem c5_history_bounded :
    (∀ (ops : List NavOp) (frag cv : String),
      (runNavOps { hash := frag, currentView := cv, navigationHistory := [] }
          ops).navigationHistory.length ≤ 10) ∧
    (∀ (navs : List (String × Option String)) (frag cv : String),
      10 < navs.length →
      (runNavOps { hash := frag, currentView := cv, navigationHistory := [] }
          (navs.map fun vp => NavOp.nav vp.1 vp.2)).navigationHistory
        = (pushedRoutes frag navs).drop (navs.length - 10)) := by
  constructor
  · intro ops frag cv
    exact runNavOps_history_le (by simp) ops
  · intro navs frag cv hlen
    rw [runNavOps_navs_history (by simp)]
    show lastN 10 ([] ++ pushedRoutes frag navs) = _
    rw [List.nil_append]
    unfold lastN
    rw [pushedRoutes_length]

/-- Witness for C5: eleven forward navigations keep the last ten pushes. -/
theorem c5_history_bounded_witness :
    (runNavOps { hash := "", currentView := "home", navigationHistory := [] }
        [NavOp.nav "posts" none, NavOp.back]).navigationHistory.length ≤ 10 ∧
    (runNavOps { hash := "", currentView := "home", navigationHistory := [] }
        ((List.replicate 11 ("posts", (none : Option String))).map
          fun vp => NavOp.nav vp.1 vp.2)).navigationHistory
      = (pushedRoutes "" (List.replicate 11 ("posts", (none : Option String)))).drop
          ((List.replicate 11 ("posts", (none : Option String))).length - 10) :=
  ⟨c5_history_bounded.1 [NavOp.nav "posts" none, NavOp.back] "" "home",
   c5_history_bounded.2 (List.replicate 11 ("posts", none)) "" "home" (by decide)⟩

/-- Claim C6: `goBack` pops one entry from the navigation history and
re-renders that route (its fragment and view are restored); on an empty stack
it falls back to the home view; and the navigation sequence
home → posts → post/a → back → back ends at home. -/
theorem c6_goBack_pops (s : NavState) :
    (∀ r : Route, s.navigationHistory.getLast? = some r →
      goBack s = { hash := hashOf r.view r.postId, currentView := r.view,
                   navigationHistory := s.navigationHistory.dropLast }) ∧
    (s.navigationHistory = [] →
      (goBack s).hash = "home" ∧ (goBack s).currentView = "home" ∧
      renderContent (goBack s).hash = View.home) ∧
    (goBack (goBack (navigateTo "posts" (some "a") (navigateTo "posts" none
        { hash := "", currentView := "home", navigationHistory := [] }))) =
      { hash := "home", currentView := "home", navigationHistory := [] } ∧
     renderContent (goBack (goBack (navigateTo "posts" (some "a") (navigateTo "posts" none
        { hash := "", currentView := "home", navigationHistory := [] })))).hash = View.home) := by
  refine ⟨fun r hr => ?_, fun hnil => ?_, by decide⟩
  · unfold goBack
    rw [hr]
  · unfold goBack
    rw [hnil]
    exact ⟨rfl, rfl, rfl⟩

/-- A navigation state on the posts view with home below it on the stack. -/
def navDemo1 : NavState :=
  { hash := "posts", currentView := "posts",
    navigationHistory := [{ view := "home", postId := none }] }

/-- A navigation state with an empty history stack. -/
def navDemo2 : NavState :=
  { hash := "whatever", currentView := "whatever", navigationHistory := [] }

/-- Witness for C6 at concrete navigation states. -/
theorem c6_goBack_pops_witness :
    goBack navDemo1 = { hash := "home", currentView := "home", navigationHistory := [] } ∧
    (goBack navDemo2).hash = "home" :=
  ⟨((c6_goBack_pops navDemo1).1 { view := "home", postId := none } rfl).trans (by decide),
   ((c6_goBack_pops navDemo2).2.1 rfl).1⟩

/-! ### Data loader (app.js lines 400-440) -/

/-- An entry of `posts/index.json`: `{id, title, date, tags}`. -/
structure PostMeta where
  id : String
  title : String
  date : Nat
  tags : List String
  deriving DecidableEq

/-- The outcomes of the fetches `loadPosts` can perform.  A `none` models any
failure of the corresponding fetch-and-parse (network error, non-JSON body,
or — for the index — a document on which `.map` throws). -/
structure FetchEnv where
  indexResult : Option (List PostMeta)
  postResult : String → Option Post
  fallbackResult : Option (List Post)

/-- Models `loadPosts` (app.js lines 400-440): fetch the index, fetch every
listed post in order (each per-post failure is caught and yields `null`),
drop the nulls, and sort by date descending; on index failure fall back to
the legacy `posts.json`, and on fallback failure return the empty list. -/
def loadPosts (env : FetchEnv) : List Post :=
  match env.indexResult with
  | some postIndex =>
      ((postIndex.map fun m => env.postResult m.id).filterMap id).insertionSort newerEq
  | none =>
      match env.fallbackResult with
      | some ps => ps
      | none => []

/-- Claim C7: `loadPosts` excludes every post whose individual fetch or parse
fails (best-effort aggregation, not all-or-nothing) and returns the remaining
posts sorted by date descending; total failure of the indexed path triggers
the legacy `posts.json` fallback, and total failure of the fallback yields
the empty post sequence. -/
theorem c7_loadPosts_best_effort (env : FetchEnv) :
    (∀ idx, env.indexResult = some idx →
      (∀ p : Post, p ∈ loadPosts env ↔ ∃ m ∈ idx, env.postResult m.id = some p) ∧
      List.Sorted newerEq (loadPosts env)) ∧
    (env.indexResult = none → ∀ ps, env.fallbackResult = some ps → loadPosts env = ps) ∧
    (env.indexResult = none → env.fallbackResult = none → loadPosts env = []) := by
  refine ⟨fun idx hidx => ⟨fun p => ?_, ?_⟩, fun hnone ps hfb => ?_, fun hnone hfb => ?_⟩
  · unfold loadPosts
    rw [hidx, List.mem_insertionSort]
    simp [List.mem_filterMap, List.mem_map]
  · unfold loadPosts
    rw [hidx]
    exact List.sorted_insertionSort _ _
  · unfold loadPosts
    rw [hnone, hfb]
  · unfold loadPosts
    rw [hnone, hfb]

/-- Index entry of the demo post dated 2024-01-01. -/
def metaA : PostMeta := { id := "a", title := "Alpha", date := 1704067200000, tags := ["x"] }

/-- Index entry of the demo post dated 2024-06-01. -/
def metaB : PostMeta := { id := "b", title := "Beta", date := 1717200000000, tags := ["y"] }

/-- A fetch environment in which post "b" fails to load. -/
def demoEnv : FetchEnv :=
  { indexResult := some [metaA, metaB]
    postResult := fun pid => if pid = "a" then some postA else none
    fallbackResult := none }

/-- Witness for C7: the loadable post is kept, and the result is sorted. -/
theorem c7_loadPosts_best_effort_witness :
    postA ∈ loadPosts demoEnv ∧ List.Sorted newerEq (loadPosts demoEnv) :=
  ⟨(((c7_loadPosts_best_effort demoEnv).1 [metaA, metaB] rfl).1 postA).mpr
      ⟨metaA, by decide, by decide⟩,
   ((c7_loadPosts_best_effort demoEnv).1 [metaA, metaB] rfl).2⟩

/-! ### Gallery viewer (postRenderer.js) -/

/-- A gallery image as it appears in the post JSON. -/
structure GalleryImage where
  src : String
  alt : String
  caption : Option String
  deriving DecidableEq

/-- A gallery image after preloading: either the original data with the
placeholder flag unset, or the placeholder substitution. -/
structure LoadedImage where
  src : String
  alt : String
  caption : Option String
  isPlaceholder : Bool
  deriving DecidableEq

/-- The placeholder image source (postRenderer.js line 11). -/
def placeholderImage : String := "/img/placeholder.png"

/-- Models the gallery portion of `preloadGalleryImages` (postRenderer.js lines
288-304): `loads src` is the resolved outcome of `checkImageLoads(src)`
(false also when the 5-second timeout fires first).  A failed image keeps its
caption but gets the placeholder src, a default alt, and the placeholder
flag. -/
def preloadGalleryImages (loads : String → Bool) (gallery : List GalleryImage) :
    List LoadedImage :=
  gallery.map fun img =>
    if loads img.src then
      { src := img.src, alt := img.alt, caption := img.caption, isPlaceholder := false }
    else
      { src := placeholderImage
        alt := if img.alt = "" then "Image not available" else img.alt
        caption := img.caption
        isPlaceholder := true }

/-- The viewer-relevant state of a `PostRenderer` instance. -/
structure ViewerState where
  loadedGalleryImages : List LoadedImage
  currentGalleryImages : List LoadedImage
  currentImageIndex : Nat
  deriving DecidableEq

/-- `openGallery` (postRenderer.js lines 387-403): filter the placeholders
out, return without opening (`none`) when nothing viewable remains, else
clamp the start index and install the viewable set. -/
def openGallery (startIndex : Nat) (s : ViewerState) : Option ViewerState :=
  if (s.loadedGalleryImages.filter fun img => !img.isPlaceholder).length = 0 then none
  else some { s with
    currentImageIndex :=
      min startIndex ((s.loadedGalleryImages.filter fun img => !img.isPlaceholder).length - 1)
    currentGalleryImages := s.loadedGalleryImages.filter fun img => !img.isPlaceholder }

/-- `nextImage` (postRenderer.js lines 417-423).  The JavaScript expression
`this.currentGalleryImages || this.loadedGalleryImages` always evaluates to
`currentGalleryImages`: it is always an array, and arrays are truthy. -/
def nextImage (s : ViewerState) : ViewerState :=
  if s.currentGalleryImages.length = 0 then s
  else { s with
    currentImageIndex := (s.currentImageIndex + 1) % s.currentGalleryImages.length }

/-- `previousImage` (postRenderer.js lines 428-434); the integer
`(index - 1 + length) % length` equals this natural-number expression for
every in-range index. -/
def previousImage (s : ViewerState) : ViewerState :=
  if s.currentGalleryImages.length = 0 then s
  else { s with
    currentImageIndex :=
      (s.currentImageIndex + s.currentGalleryImages.length - 1) % s.currentGalleryImages.length }

/-- The image shown by `updateGalleryDisplay` (postRenderer.js line 442). -/
def displayedImage (s : ViewerState) : Option LoadedImage :=
  s.currentGalleryImages[s.currentImageIndex]?

/-- The viewer invariant established by `openGallery`: the index is in range
and no navigable image is a placeholder. -/
def GoodViewer (s : ViewerState) : Prop :=
  s.currentImageIndex < s.currentGalleryImages.length ∧
  ∀ img ∈ s.currentGalleryImages, img.isPlaceholder = false

theorem filter_preloadGalleryImages (loads : String → Bool) (gallery : List GalleryImage) :
    ((preloadGalleryImages loads gallery).filter fun img => !img.isPlaceholder)
      = (gallery.filter fun img => loads img.src).map
          (fun img => { src := img.src, alt := img.alt, caption := img.caption,
                        isPlaceholder := false }) := by
  induction gallery with
  | nil => rfl
  | cons img rest ih =>
    by_cases h : loads img.src = true <;>
      simp [preloadGalleryImages, List.filter, h, ih] <;>
      simpa [preloadGalleryImages] using ih

/-- Claim C9: when the full-screen viewer is opened for a post whose gallery
has been preloaded, the navigable image set is exactly the set of gallery
images that loaded successfully (placeholder-substituted images excluded),
`nextImage`/`previousImage` keep the index inside that set and never change
the set, and the displayed image is never a placeholder. -/
theorem c9_gallery_viewer (loads : String → Bool) (gallery : List GalleryImage)
    (s s' : ViewerState) (start : Nat)
    (hpre : s.loadedGalleryImages = preloadGalleryImages loads gallery)
    (hopen : openGallery start s = some s') :
    s'.currentGalleryImages
        = (gallery.filter fun img => loads img.src).map
            (fun img => { src := img.src, alt := img.alt, caption := img.caption,
                          isPlaceholder := false }) ∧
    GoodViewer s' ∧
    (∀ t : ViewerState, GoodViewer t →
      GoodViewer (nextImage t) ∧ GoodViewer (previousImage t) ∧
      (nextImage t).currentGalleryImages = t.currentGalleryImages ∧
      (previousImage t).currentGalleryImages = t.currentGalleryImages) ∧
    (∀ t : ViewerState, GoodViewer t →
      ∃ img, displayedImage t = some img ∧ img.isPlaceholder = false) := by
  unfold openGallery at hopen
  split at hopen
  · exact absurd hopen (by simp)
  next hlen =>
    have hpos : 0 < (s.loadedGalleryImages.filter fun img => !img.isPlaceholder).length :=
      Nat.pos_of_ne_zero hlen
    cases hopen
    refine ⟨?_, ⟨?_, ?_⟩, fun t ht => ?_, fun t ht => ?_⟩
    · show (s.loadedGalleryImages.filter fun img => !img.isPlaceholder) = _
      rw [hpre, filter_preloadGalleryImages]
    · exact Nat.lt_of_le_of_lt (Nat.min_le_right _ _) (Nat.sub_lt hpos Nat.one_pos)
    · intro img hmem
      have := (List.mem_filter.mp hmem).2
      simpa using this
    · obtain ⟨hidx, hmem⟩ := ht
      have hp : 0 < t.currentGalleryImages.length := Nat.lt_of_le_of_lt (Nat.zero_le _) hidx
      have hne : ¬t.currentGalleryImages.length = 0 := Nat.pos_iff_ne_zero.mp hp
      unfold nextImage previousImage
      rw [if_neg hne, if_neg hne]
      exact ⟨⟨Nat.mod_lt _ hp, hmem⟩, ⟨Nat.mod_lt _ hp, hmem⟩, rfl, rfl⟩
    · obtain ⟨hidx, hmem⟩ := ht
      refine ⟨t.currentGalleryImages[t.currentImageIndex], ?_, ?_⟩
      · exact List.getElem?_eq_getElem hidx
      · exact hmem _ (List.getElem_mem hidx)

/-- Demo load outcome: only "a.png" loads. -/
def loadsDemo : String → Bool := fun src => src == "a.png"

/-- Demo gallery with one loadable and one failing image. -/
def galleryDemo : List GalleryImage :=
  [{ src := "a.png", alt := "A", caption := none },
   { src := "b.png", alt := "B", caption := none }]

/-- The viewer state right after preloading the demo gallery. -/
def viewerDemo : ViewerState :=
  { loadedGalleryImages := preloadGalleryImages loadsDemo galleryDemo
    currentGalleryImages := []
    currentImageIndex := 0 }

/-- The viewer state `openGallery 0` produces on the demo gallery. -/
def viewerDemoOpen : ViewerState :=
  { loadedGalleryImages := preloadGalleryImages loadsDemo galleryDemo
    currentGalleryImages :=
      [{ src := "a.png", alt := "A", caption := none, isPlaceholder := false }]
    currentImageIndex := 0 }

/-- Witness for C9 on the demo gallery. -/
theorem c9_gallery_viewer_witness :
    viewerDemoOpen.currentGalleryImages
        = (galleryDemo.filter fun img => loadsDemo img.src).map
            (fun img => { src := img.src, alt := img.alt, caption := img.caption,
                          isPlaceholder := false }) ∧
    GoodViewer viewerDemoOpen :=
  have h := c9_gallery_viewer loadsDemo galleryDemo viewerDemo viewerDemoOpen 0 rfl (by decide)
  ⟨h.1, h.2.1⟩

/-! ### Claim C8: route resolution -/

theorem string_data_append (a b : String) : (a ++ b).data = a.data ++ b.data := by
  cases a
  cases b
  rfl

theorem string_mk_data (s : String) : String.mk s.data = s := rfl

theorem data_ne_nil {s : String} (h : s ≠ "") : s.data ≠ [] := by
  intro hd
  apply h
  cases s with
  | mk d =>
    simp only at hd
    rw [hd]

theorem splitSlash_no_slash {cs : List Char} (h : '/' ∉ cs) : splitSlash cs = [cs] := by
  induction cs with
  | nil => rfl
  | cons c cs ih =>
    have hc : ¬c = '/' := fun hcc => h (hcc ▸ List.mem_cons_self c cs)
    have hcs : '/' ∉ cs := fun hm => h (List.mem_cons_of_mem c hm)
    unfold splitSlash
    rw [if_neg hc, ih hcs]
    rfl

theorem splitSlash_append_slash {xs : List Char} (ys : List Char) (h : '/' ∉ xs) :
    splitSlash (xs ++ '/' :: ys) = xs :: splitSlash ys := by
  induction xs with
  | nil =>
    show splitSlash ('/' :: ys) = _
    simp only [splitSlash]
    rw [if_pos trivial]
  | cons x xs ih =>
    have hx : ¬x = '/' := fun hxx => h (hxx ▸ List.mem_cons_self x xs)
    have hxs : '/' ∉ xs := fun hm => h (List.mem_cons_of_mem x hm)
    show splitSlash (x :: (xs ++ '/' :: ys)) = _
    simp only [splitSlash]
    rw [if_neg hx, ih hxs]
    rfl

/-- Route resolution for a two-segment fragment `<view>/<postId>`. -/
theorem getCurrentRoute_two_segments (v pid : String) (hv : '/' ∉ v.data)
    (hvne : v ≠ "") (hpid : pid ≠ "") (hs : '/' ∉ pid.data) :
    getCurrentRoute (v ++ "/" ++ pid) = { view := v, postId := some pid } := by
  have hdata : (v ++ "/" ++ pid).data = v.data ++ '/' :: pid.data := by
    rw [string_data_append, string_data_append, List.append_assoc]
    rfl
  unfold getCurrentRoute
  rw [hdata, splitSlash_append_slash _ hv, splitSlash_no_slash hs]
  show ({ view := if v.data = [] then "home" else ⟨v.data⟩,
          postId := if pid.data = [] then none else some ⟨pid.data⟩ } : Route) = _
  rw [if_neg (data_ne_nil hvne), if_neg (data_ne_nil hpid)]

/-- Counterexample for C8 as stated: the fragment "garbage" is neither empty
nor a recognised view, yet the resolved route's view is the verbatim string
"garbage" rather than "home" — only `renderContent` falls back to the home
view. -/
theorem c8_route_default_counterexample :
    (getCurrentRoute "garbage").view = "garbage" ∧
    "garbage" ≠ "home" ∧ "garbage" ≠ "posts" ∧
    (getCurrentRoute "garbage").view ≠ "home" ∧
    renderContent "garbage" = View.home := by decide

/-- Claim C8 (amended): route resolution maps the fragment to `{view, postId}`
per the grammar `#<view>` or `#<view>/<postId>`; an empty fragment resolves
its view to `home`, while a fragment with an unrecognised view keeps that
view verbatim in the resolved pair — but `renderContent` renders the home
view for every fragment whose resolved view is neither `home` nor `posts`. -/
theorem c8_route_resolution :
    getCurrentRoute "" = { view := "home", postId := none } ∧
    getCurrentRoute "home" = { view := "home", postId := none } ∧
    getCurrentRoute "posts" = { view := "posts", postId := none } ∧
    (∀ pid : String, pid ≠ "" → '/' ∉ pid.data →
      getCurrentRoute ("home/" ++ pid) = { view := "home", postId := some pid } ∧
      getCurrentRoute ("posts/" ++ pid) = { view := "posts", postId := some pid }) ∧
    (∀ frag : String, (getCurrentRoute frag).view ≠ "home" →
      (getCurrentRoute frag).view ≠ "posts" → renderContent frag = View.home) ∧
    renderContent "" = View.home ∧ renderContent "posts/a" = View.postDetail "a" := by
  refine ⟨by decide, by decide, by decide, fun pid h1 h2 => ⟨?_, ?_⟩, fun frag h1 h2 => ?_,
    by decide, by decide⟩
  · exact getCurrentRoute_two_segments "home" pid (by decide) (by decide) h1 h2
  · exact getCurrentRoute_two_segments "posts" pid (by decide) (by decide) h1 h2
  · unfold renderContent
    rw [if_neg h1, if_neg h2]

/-- Witness for C8 (amended) at a concrete post id and fragment. -/
theorem c8_route_resolution_witness :
    getCurrentRoute "posts/alpha" = { view := "posts", postId := some "alpha" } ∧
    renderContent "garbage2" = View.home :=
  ⟨((c8_route_resolution.2.2.2.1 "alpha" (by decide) (by decide)).2).trans (by decide),
   c8_route_resolution.2.2.2.2.1 "garbage2" (by decide) (by decide)⟩

end Site
